import Mathlib

/-!
Verification of the HCHB FHIR portal's extraction and sync engine.

This file gives a shallow embedding, in Lean 4, of the core data-collection
code of the repository (`utils/fhir_client.py`, the coordination-notes
windowed sync in `scripts/coordination_notes_csv.py`, the patient pipeline in
`scripts/patients_csv.py` and the O2-medication detection in
`scripts/alert_media_batch.py`), together with theorems settling the frozen
claims about that code.

Modelling conventions:
- Timestamps are modelled as `Int` seconds.  All timestamps handled by the
  claims are well-formed `%Y-%m-%dT%H:%M:%SZ` strings, on which Python's
  lexicographic string comparison agrees with chronological order, so the
  integer model preserves every comparison the source performs.
- Python `None` and falsy defaults become `Option`; a raised exception that a
  caller observes becomes `Except`.
- HTTP traffic is an oracle: a function from the attempt index (or the query
  cursor, or the absolute page URL) to the response the server would give.
- Logging, sleeping and thread-pool fan-out are effect-free in the model;
  where an effect matters to a claim (SharePoint downloads and uploads in the
  coordination-notes pipeline) the model emits an explicit event list.
-/

set_option linter.unusedVariables false

namespace HCHB

/-! ## TokenManager (`utils/fhir_client.py`, lines 19-91) -/

/-- State of `TokenManager`: the fields set in `__init__`
(`self.request_count = 0`, `self.current_token = None`).  The lock is not
modelled; the claims are about the sequential counter/refresh contract. -/
structure TokenManager where
  request_count : Nat
  current_token : Option String
  deriving DecidableEq

/-- Python truthiness of `not self.current_token`: `None` and the empty
string are falsy. -/
def tokenFalsy : Option String → Bool
  | none => true
  | some s => s == ""

/-- Result of one `get_token` call: the returned token, the state of the
manager afterwards, and how many times `_fetch_new_token` ran (0 or 1). -/
structure GetTokenResult where
  token : String
  state : TokenManager
  refreshes : Nat
  deriving DecidableEq

/-- Embedding of `TokenManager.get_token` (fhir_client.py lines 27-43).
`rotation` is the configured `TOKEN_ROTATION_COUNT`; `fresh` is the token
`_fetch_new_token` would return on this call (token values are abstracted;
the control flow and the counter handling follow the source line by line). -/
def TokenManager.get_token (tm : TokenManager) (rotation : Nat) (fresh : String)
    (force_refresh : Bool) : GetTokenResult :=
  if force_refresh || tokenFalsy tm.current_token ||
      decide (rotation ≤ tm.request_count) then
    { token := fresh, state := { request_count := 0, current_token := some fresh },
      refreshes := 1 }
  else
    { token := tm.current_token.getD "", state := tm, refreshes := 0 }

/-- Embedding of `TokenManager.increment_request_count` (lines 77-91):
bumps the counter and reports whether rotation is now due. -/
def TokenManager.increment_request_count (tm : TokenManager) (rotation : Nat) :
    TokenManager × Bool :=
  let tm2 : TokenManager := { request_count := tm.request_count + 1,
                              current_token := tm.current_token }
  (tm2, decide (rotation ≤ tm2.request_count))

/-- Iterated increments: `n` successive successful API calls, each calling
`increment_request_count` once (fhir_client.py line 185). -/
def incrementN (tm : TokenManager) (rotation : Nat) : Nat → TokenManager
  | 0 => tm
  | n + 1 => ((incrementN tm rotation n).increment_request_count rotation).1

/-! ## Phone normalization (`scripts/patients_csv.py`, lines 32-57) -/

/-- Digit stripping `re.sub(r'\D', '', phone_number)`. -/
def digitsOnly (s : String) : List Char :=
  s.toList.filter (fun c => c.isDigit)

/-- The `###-###-####` formatting applied by the source:
`digits[:3] + "-" + digits[3:6] + "-" + digits[6:]`. -/
def format10 (ds : List Char) : String :=
  String.mk (ds.take 3) ++ "-" ++ String.mk ((ds.drop 3).take 3) ++ "-" ++
    String.mk (ds.drop 6)

/-- Embedding of `normalize_phone_number` (patients_csv.py lines 32-57).
The Bool records whether the "Unusual phone number format" warning was
logged. -/
def normalize_phone_number (phone_number : String) : String × Bool :=
  if phone_number == "" then ("", false)
  else
    let ds := digitsOnly phone_number
    if ds.length == 10 then (format10 ds, false)
    else if ds.length == 11 && (ds.headD ' ' == '1') then
      (format10 (ds.drop 1), false)
    else (phone_number, true)

/-! ## FHIRClient.make_request (`utils/fhir_client.py`, lines 111-218) -/

/-- An HTTP response: status code, the `Retry-After` header value the 429
branch would read, and the parsed body.  `α` is the body type (JSON is
abstracted). -/
structure HttpResponse (α : Type) where
  status : Nat
  retry_after : Nat
  body : α

/-- Embedding of `FHIRClient.make_request` (fhir_client.py lines 111-218).

`fetch i` is the response the server gives to the `i`-th HTTP attempt of this
logical request (the attempt index equals `retry_count`, which grows by one
on every recursive retry).  `fresh i` is the token `_fetch_new_token` would
return during attempt `i`.  The result is:
- `.error ()` when the Python code lets an `HTTPError` propagate
  (retries exhausted);
- `.ok (none, tm, n)` for the 414 sentinel `return None`;
- `.ok (some body, tm, n)` for a successful call,
where `tm` is the final `TokenManager` state and `n` counts the HTTP requests
actually issued.  Branches in source order: the initial `get_headers` token
fetch, the 429 branch (sleep, forced refresh, bounded retry), the 414
sentinel, the 5xx branch (backoff, forced refresh, bounded retry), then
`raise_for_status` whose `HTTPError` is caught and retried with a forced
refresh, and finally the success path which increments the rotation
counter. -/
def make_request (α : Type) (fetch : Nat → HttpResponse α)
    (rotation max_retries : Nat) (fresh : Nat → String) (tm : TokenManager)
    (retry_count : Nat) : Except Unit (Option α × TokenManager × Nat) :=
  let g := tm.get_token rotation (fresh retry_count) false
  let tm1 := g.state
  let r := fetch retry_count
  if r.status == 429 then
    let g2 := tm1.get_token rotation (fresh retry_count) true
    if h : retry_count < max_retries then
      match make_request α fetch rotation max_retries fresh g2.state
          (retry_count + 1) with
      | .ok (res, tm2, n) => .ok (res, tm2, n + 1)
      | .error e => .error e
    else .error ()
  else if r.status == 414 then
    .ok (none, tm1, 1)
  else if 500 ≤ r.status then
    if h : retry_count < max_retries then
      let g2 := tm1.get_token rotation (fresh retry_count) true
      match make_request α fetch rotation max_retries fresh g2.state
          (retry_count + 1) with
      | .ok (res, tm2, n) => .ok (res, tm2, n + 1)
      | .error e => .error e
    else .error ()
  else if 400 ≤ r.status then
    if h : retry_count < max_retries then
      let g2 := tm1.get_token rotation (fresh retry_count) true
      match make_request α fetch rotation max_retries fresh g2.state
          (retry_count + 1) with
      | .ok (res, tm2, n) => .ok (res, tm2, n + 1)
      | .error e => .error e
    else .error ()
  else
    .ok (some r.body, (tm1.increment_request_count rotation).1, 1)
termination_by max_retries - retry_count
decreasing_by all_goals omega

/-! ## Bundles and pagination (`utils/fhir_client.py`, lines 248-293) -/

/-- One element of a bundle's `link` array. -/
structure BundleLink where
  relation : String
  url : Option String
  deriving DecidableEq

/-- One element of a bundle's `entry` array; the `resource` key may be
absent. -/
structure BundleEntry (α : Type) where
  resource : Option α
  deriving DecidableEq

/-- A FHIR search-result page.  An absent `entry`/`link` key and an empty
array take identical paths through `get_all_pages`, so both are the empty
list. -/
structure Bundle (α : Type) where
  entry : List (BundleEntry α)
  link : List BundleLink
  deriving DecidableEq

/-- The `next((link for link in bundle["link"] if link.get("relation") ==
"next"), None)` selector. -/
def nextLink (α : Type) (b : Bundle α) : Option BundleLink :=
  b.link.find? (fun l => l.relation == "next")

/-- Resources collected from one page: `entry["resource"]` for every entry
that has a `resource` key, in order. -/
def pageResources (α : Type) (b : Bundle α) : List α :=
  b.entry.filterMap (fun e => e.resource)

/-- The `while "link" in bundle` loop of `get_all_pages` (fhir_client.py
lines 275-290).  `fetch u` is the bundle `make_request u` returns for the
absolute next-page URL `u`.  `fuel` bounds the number of link hops; `none`
means the chain was longer than `fuel` (the source has no cycle guard). -/
def get_all_pages_go (α : Type) (fetch : String → Bundle α) (bundle : Bundle α)
    (acc : List α) : Nat → Option (List α)
  | 0 => none
  | fuel + 1 =>
    match nextLink α bundle with
    | none => some acc
    | some l =>
      match l.url with
      | none => some acc
      | some u =>
        let b2 := fetch u
        if b2.entry.isEmpty then some acc
        else get_all_pages_go α fetch b2 (acc ++ pageResources α b2) fuel

/-- Embedding of `FHIRClient.get_all_pages` (fhir_client.py lines 248-293):
collect the first page's resources, then follow `next` links. -/
def get_all_pages (α : Type) (fetch : String → Bundle α) (first : Bundle α)
    (fuel : Nat) : Option (List α) :=
  get_all_pages_go α fetch first (pageResources α first) fuel

/-- A finite chain of bundles as the claim describes it: each bundle except
the last carries a `next` link whose URL `fetch` resolves to the following
bundle, and the last bundle has no `next` link. -/
def linkedChain (α : Type) (fetch : String → Bundle α) : List (Bundle α) → Prop
  | [] => True
  | [b] => nextLink α b = none
  | b :: b2 :: rest =>
      (∃ u, nextLink α b = some { relation := "next", url := some u } ∧
        fetch u = b2) ∧
      linkedChain α fetch (b2 :: rest)

/-! ## Coordination notes (`scripts/coordination_notes_csv.py`) -/

/-- One row of the coordination-notes CSV.  `api_run_date` is the parsed
`Api_Run_Date` field: `none` when the field is absent, empty, or fails
`datetime.fromisoformat` (all three make `get_last_fetch_date` skip the
row); `note_date` is the resource `date` copied into `Note_Date`.  The
remaining eight columns are copied verbatim from the resource and are
abstracted into the identity `rid`. -/
structure NoteRow where
  note_date : Option Int
  api_run_date : Option Int
  rid : Nat
  deriving DecidableEq

/-- The `SYNC_BUFFER_MINUTES = 30` constant (coordination_notes_csv.py
line 32), in seconds. -/
def SYNC_BUFFER_SECONDS : Int := 30 * 60

/-- The 60-day default lookback of `get_last_fetch_date` (line 89), in
seconds. -/
def DEFAULT_LOOKBACK_SECONDS : Int := 60 * 86400

/-- Loop body of the scan in `get_last_fetch_date` (lines 70-77): keep the
greater of the running `latest_date` and this row's parseable
`Api_Run_Date` (`if not latest_date or dt > latest_date`). -/
def latestStep (latest : Option Int) (row : NoteRow) : Option Int :=
  match row.api_run_date with
  | none => latest
  | some dt =>
    match latest with
    | none => some dt
    | some l => if l < dt then some dt else latest

/-- The scan in `get_last_fetch_date` (lines 69-77): fold over the rows
keeping the greatest parseable `Api_Run_Date`. -/
def latestApiRunDate (rows : List NoteRow) : Option Int :=
  rows.foldl latestStep none

/-- Embedding of `get_last_fetch_date` (coordination_notes_csv.py lines
54-91).  `download` is the outcome of
`sharepoint_client.download_csv(COORDINATION_NOTES_FILENAME)`: `.error ()`
when the download (or anything else inside the `try`) raises, `.ok rows`
otherwise — `download_csv` returns the empty list when the file is absent.
Returns the initial sync cursor. -/
def get_last_fetch_date (download : Except Unit (List NoteRow)) (now : Int) :
    Int :=
  match download with
  | .error _ => now - DEFAULT_LOOKBACK_SECONDS
  | .ok existing_notes =>
    if existing_notes.isEmpty then now - DEFAULT_LOOKBACK_SECONDS
    else
      match latestApiRunDate existing_notes with
      | some latest_date => latest_date - SYNC_BUFFER_SECONDS
      | none => now - DEFAULT_LOOKBACK_SECONDS

/-- A DocumentReference resource as the windowed fetch sees it: the `date`
field (`none` when absent or empty — falsy in
`if resource_date and resource_date > batch_latest_date`) and an abstract
identity standing for all other extracted fields. -/
structure NoteRes where
  date : Option Int
  rid : Nat
  deriving DecidableEq

/-- The note record built for one resource (lines 156-167): `Note_Date` is
the resource date, `Api_Run_Date` is the run timestamp taken once per
window. -/
def noteRowOfRes (run_timestamp : Int) (r : NoteRes) : NoteRow :=
  { note_date := r.date, api_run_date := some run_timestamp, rid := r.rid }

/-- Loop body of the `batch_latest_date` tracking (lines 170-172): a dated
resource that exceeds the running value replaces it
(`if resource_date and resource_date > batch_latest_date`). -/
def batchStep (acc : Int) (r : NoteRes) : Int :=
  match r.date with
  | none => acc
  | some d => if acc < d then d else acc

/-- The `batch_latest_date` tracking of `fetch_notes_by_date_range` (lines
125 and 170-172): start from `start_date` and fold the batch through
`batchStep`. -/
def batchLatest (start_date : Int) (rs : List NoteRes) : Int :=
  rs.foldl batchStep start_date

/-- Embedding of `fetch_notes_by_date_range` (lines 93-193).  `server c` is
the full list of DocumentReference resources the windowed query
`category=coordination-note, status=current, date ≥ c` yields across its
internal pagination (the `next`-link following inside the window is the
`get_all_pages` pattern verified separately).  Returns the note records
paired with `batch_latest_date`. -/
def fetch_notes_by_date_range (server : Int → List NoteRes) (run_ts : Int)
    (start_date : Int) : List NoteRow × Int :=
  ((server start_date).map (noteRowOfRes run_ts),
    batchLatest start_date (server start_date))

/-- Why the `while more_data` loop in `main` stopped. -/
inductive SyncStop where
  | noMoreData
  | reachedNow
  | fuelExhausted
  deriving DecidableEq

/-- Outcome of the windowed fetch loop: the collected records, the cursor
value after each processed batch, and the stop reason. -/
structure SyncResult where
  notes : List NoteRow
  cursors : List Int
  stop : SyncStop
  deriving DecidableEq

/-- Embedding of the `while more_data` loop of `main`
(coordination_notes_csv.py lines 205-253): fetch a window at the cursor;
stop when it yields no notes; otherwise append the records, advance the
cursor to `batch_latest_date + 1` second, and stop once the cursor reaches
the `now` captured before the loop.  The date-string round-trip
(strptime, `+ timedelta(seconds=1)`, strftime `%Y-%m-%dT%H:%M:%SZ`) is the
`+ 1` on integer seconds; the claims presuppose parseable dates, so the
string-append fallback branch (line 247) is not reachable in the model.
`fuel` bounds the iteration count; `fuelExhausted` never occurs for
`fuel > now - current` (proved below). -/
def syncLoop (server : Int → List NoteRes) (run_ts now : Int) :
    Nat → Int → SyncResult
  | 0, _ => { notes := [], cursors := [], stop := .fuelExhausted }
  | fuel + 1, current_date =>
    let fr := fetch_notes_by_date_range server run_ts current_date
    if fr.1.isEmpty then { notes := [], cursors := [], stop := .noMoreData }
    else
      let next_date := fr.2 + 1
      if now ≤ next_date then
        { notes := fr.1, cursors := [next_date], stop := .reachedNow }
      else
        let rest := syncLoop server run_ts now fuel next_date
        { notes := fr.1 ++ rest.notes, cursors := next_date :: rest.cursors,
          stop := rest.stop }

/-- Modelled from the spec (claim C1): the maximum resource date of a
batch, `none` when no resource in the batch carries a date. -/
def specMaxDate : List NoteRes → Option Int
  | [] => none
  | r :: rest =>
    match specMaxDate rest, r.date with
    | none, none => none
    | none, some d => some d
    | some a, none => some a
    | some a, some d => some (max d a)

/-- Modelled from the spec (claim C1): the claimed behaviour of the windowed
sync loop — after each batch the cursor equals that batch's maximum
resource date plus one second, and the loop stops the first time a batch is
empty (`noMoreData`) or the advanced cursor reaches `now` (`reachedNow`).
`none` when fuel runs out or a nonempty batch has no dated resource (a case
the claim does not describe). -/
def specSyncTrace (server : Int → List NoteRes) (now : Int) :
    Nat → Int → Option (List Int × SyncStop)
  | 0, _ => none
  | fuel + 1, cursor =>
    if (server cursor).isEmpty then some ([], .noMoreData)
    else
      match specMaxDate (server cursor) with
      | none => none
      | some d =>
        let next := d + 1
        if now ≤ next then some ([next], .reachedNow)
        else
          match specSyncTrace server now fuel next with
          | none => none
          | some (cs, st) => some (next :: cs, st)

/-- Observable SharePoint traffic of one coordination-notes run. -/
inductive CoordEvent where
  | download
  | upload (rows : List NoteRow)
  deriving DecidableEq

/-- Number of `download_csv` calls in an event trace. -/
def downloadCount (evs : List CoordEvent) : Nat :=
  evs.countP (fun e => match e with | .download => true | _ => false)

/-- Embedding of `main` (coordination_notes_csv.py lines 195-292) at the
level of its SharePoint traffic.  `store_rows` is the CSV content held by
SharePoint for the duration of the run (the store is not mutated between
the two reads).  Step 1 calls `get_last_fetch_date`, whose
`download_csv` is the first `.download` event; step 2 runs the windowed
loop (with always-sufficient fuel); if no notes were collected `main`
returns `True` immediately; otherwise step 4 calls `download_csv` again
(second `.download` event) and step 6 uploads the re-downloaded rows with
the new records appended, as one full rewrite.  `upload_ok` is whether
`upload_csv` succeeds; the returned Bool is `main`'s return value. -/
def coordination_main (store_rows : List NoteRow) (server : Int → List NoteRes)
    (run_ts now : Int) (upload_ok : Bool) : List CoordEvent × Bool :=
  let last_fetch_date := get_last_fetch_date (.ok store_rows) now
  let ev1 : List CoordEvent := [.download]
  let sync := syncLoop server run_ts now ((now - last_fetch_date).toNat + 1)
    last_fetch_date
  if sync.notes.isEmpty then (ev1, true)
  else
    let existing_notes := store_rows
    let all_notes := existing_notes ++ sync.notes
    (ev1 ++ [.download, .upload all_notes], upload_ok)

/-! ## O2 medication detection (`scripts/alert_media_batch.py`, lines
439-533) -/

/-- Python substring/startswith machinery: does the first list start with
the second? (`str.startswith`; the empty needle matches). -/
def charsStartWith : List Char → List Char → Bool
  | _, [] => true
  | [], _ :: _ => false
  | h :: t, h2 :: t2 => h == h2 && charsStartWith t t2

/-- Python `needle in hay` on strings: substring containment. -/
def charsContain : List Char → List Char → Bool
  | [], needle => needle.isEmpty
  | h :: t, needle => charsStartWith (h :: t) needle || charsContain t needle

/-- String-level wrapper for Python `needle in hay`. -/
def strContainsSub (hay needle : String) : Bool :=
  charsContain hay.toList needle.toList

/-- String-level wrapper for Python `hay.startswith(needle)`. -/
def strStartsWith (hay needle : String) : Bool :=
  charsStartWith hay.toList needle.toList

/-- Python `s.split()`: split on whitespace, dropping empty pieces. -/
def pySplit (s : String) : List String :=
  (s.split (fun c => c.isWhitespace)).filter (fun w => !w.isEmpty)

/-- One element of a `coding` array; `coding.get("code", "")` and
`coding.get("display", "")` read these with empty-string defaults. -/
structure Coding where
  code : Option String
  display : Option String
  deriving DecidableEq

/-- The `medicationCodeableConcept` of a MedicationRequest.  `text` is
`Option` because the dosage-pattern branch tests key presence
(`"text" in med_request["medicationCodeableConcept"]`). -/
structure MedCodeableConcept where
  text : Option String
  coding : List Coding
  deriving DecidableEq

/-- One `dosageInstruction` element; the source tests `"text" in
instruction`. -/
structure DosageInstruction where
  text : Option String
  deriving DecidableEq

/-- One `category` element. -/
structure MedCategory where
  coding : List Coding
  deriving DecidableEq

/-- One `note` element; the source tests `"text" in note`. -/
structure MedNote where
  text : Option String
  deriving DecidableEq

/-- A MedicationRequest as `_check_patient_o2_status` reads it.  `id` is
`med_request.get("id", "")`, so an absent id is the empty string; absent
`dosageInstruction`/`category`/`note` keys and empty arrays take identical
paths, so both are the empty list. -/
structure MedicationRequest where
  id : String
  medicationCodeableConcept : Option MedCodeableConcept
  dosageInstruction : List DosageInstruction
  category : List MedCategory
  note : List MedNote
  deriving DecidableEq

/-- The coding predicate of the coding branch (alert_media_batch.py lines
481-489): code starts with "O2", or "oxygen" in display, or "o2" a word of
display, or any keyword a substring of display (display lower-cased,
keywords lower-cased). -/
def codingMatches (o2_keywords : List String) (c : Coding) : Bool :=
  let code := c.code.getD ""
  let display := (c.display.getD "").toLower
  strStartsWith code "O2" || strContainsSub display "oxygen" ||
    (pySplit display).contains "o2" ||
    o2_keywords.any (fun kw => strContainsSub display kw.toLower)

/-- The two dosage sub-checks for one `dosageInstruction` (lines 492-510):
first keyword-in-dosage-text, then the dosage-pattern check that also
consults the medication name. -/
def dosageReason (o2_keywords dosage_keywords : List String)
    (m : MedicationRequest) (ins : DosageInstruction) : Option String :=
  match ins.text with
  | none => none
  | some t0 =>
    let instruction_text := t0.toLower
    if o2_keywords.any (fun kw => strContainsSub instruction_text kw.toLower)
    then some ("Matched dosage text: " ++ instruction_text.take 30 ++ "...")
    else
      match m.medicationCodeableConcept with
      | none => none
      | some mc =>
        match mc.text with
        | none => none
        | some nm =>
          let med_name := nm.toLower
          if dosage_keywords.any
                (fun kw => strContainsSub instruction_text kw) &&
              (strStartsWith med_name "o2" ||
                strContainsSub med_name "oxygen") then
            some ("Matched dosage pattern: " ++ instruction_text.take 30 ++
              "...")
          else none

/-- Embedding of the per-medication body of the `for med_request in
med_requests` loop of `_check_patient_o2_status` (alert_media_batch.py
lines 464-529), in source order: known-ID check, then name text, then
coding, then dosage instructions, then category, then notes; the first hit
returns its `match_reason`. -/
def checkMedication (known_o2_medication_ids o2_keywords dosage_keywords :
    List String) (m : MedicationRequest) : Option String :=
  if known_o2_medication_ids.contains m.id then
    some ("Matched known ID: " ++ m.id)
  else
    let conceptReason : Option String :=
      match m.medicationCodeableConcept with
      | none => none
      | some mc =>
        let med_name := (mc.text.getD "").toLower
        if o2_keywords.any (fun kw => strContainsSub med_name kw.toLower) then
          some ("Matched name: " ++ med_name)
        else
          match mc.coding.find? (codingMatches o2_keywords) with
          | some c => some ("Matched coding: " ++ (c.display.getD "").toLower)
          | none => none
    match conceptReason with
    | some r => some r
    | none =>
      match m.dosageInstruction.findSome?
          (dosageReason o2_keywords dosage_keywords m) with
      | some r => some r
      | none =>
        let categoryReason : Option String :=
          m.category.findSome? (fun cat =>
            cat.coding.findSome? (fun c =>
              let display := (c.display.getD "").toLower
              if strContainsSub display "respiratory" ||
                  strContainsSub display "oxygen" then
                some ("Matched category: " ++ display)
              else none))
        match categoryReason with
        | some r => some r
        | none =>
          m.note.findSome? (fun n =>
            match n.text with
            | none => none
            | some t0 =>
              let note_text := t0.toLower
              if o2_keywords.any
                  (fun kw => strContainsSub note_text kw.toLower) then
                some ("Matched note text: " ++ note_text.take 30 ++ "...")
              else none)

/-- The `for med_request in med_requests` loop with its early returns and
the final `return False, ""` (lines 464-531). -/
def o2MatchLoop (known_o2_medication_ids o2_keywords dosage_keywords :
    List String) : List MedicationRequest → Bool × String
  | [] => (false, "")
  | m :: rest =>
    match checkMedication known_o2_medication_ids o2_keywords dosage_keywords
        m with
    | some reason => (true, reason)
    | none => o2MatchLoop known_o2_medication_ids o2_keywords dosage_keywords
        rest

/-- The attributes the `FHIRClient` class defines (fhir_client.py lines
96-293): `__init__`, `get_headers`, `make_request`, `get_resource`,
`search_resources`, `get_all_pages`. -/
def fhirClientMethods : List String :=
  ["__init__", "get_headers", "make_request", "get_resource",
   "search_resources", "get_all_pages"]

/-- Python attribute lookup on the `fhir_client` instance: does the class
define this method?  A lookup miss raises `AttributeError`. -/
def fhirClientHasMethod (nm : String) : Bool := fhirClientMethods.contains nm

/-- Embedding of `_check_patient_o2_status` (alert_media_batch.py lines
439-533).  The body first evaluates `fhir_client.get_resources(...)`:
attribute lookup on a name `FHIRClient` does not define raises
`AttributeError` before any request is made, and the enclosing
`try/except Exception` returns `(False, "")`.  Were the attribute present,
the med-request loop would run on the fetched resources `server_meds`. -/
def check_patient_o2_status (patient_id : String)
    (server_meds : List MedicationRequest)
    (known_o2_medication_ids o2_keywords dosage_keywords : List String) :
    Bool × String :=
  if fhirClientHasMethod "get_resources" then
    o2MatchLoop known_o2_medication_ids o2_keywords dosage_keywords
      server_meds
  else
    (false, "")

/-- The O2 CSV column for one patient (alert_media_batch.py line 618):
`"Yes" if o2_status else ""`. -/
def o2ColumnValue (has_o2 : Bool) : String := if has_o2 then "Yes" else ""

/-! ## Patient pipeline save phase (`scripts/patients_csv.py`, lines
294-397) -/

/-- Status values of `ProgressTracker.status` (utils/progress_tracker.py line 25): `running`,
`completed` (set by `complete`) or `error` (set by `set_error`). -/
inductive TrackerStatus where
  | running
  | completed
  | error
  deriving DecidableEq

/-- The flat record `process_patient` produces (patients_csv.py lines
236-247). -/
structure PatientRow where
  patientId : String
  lastName : String
  firstName : String
  mi : String
  street : String
  city : String
  state : String
  zip : String
  county : String
  phone : String
  deriving DecidableEq

/-- Outcome of the save phase: the final `ProgressTracker` status, whether
the local backup CSV was written, and `main`'s return value. -/
structure PatientsSaveResult where
  status : TrackerStatus
  backup_written : Bool
  returned : Bool
  deriving DecidableEq

/-- Embedding of the save phase of `patients_csv.main` (lines 329-374) with
its enclosing `try/except` (lines 387-397).  With records to save, `main`
first writes the timestamped local backup via `save_to_local_csv` (line
340, before any upload attempt; a failure there raises out of the inner
code to the outer handler, which calls `progress.set_error` and returns
`False`), then tries `sharepoint_client.upload_csv`: on success it calls
`progress.complete` and returns `True`; on failure the `except` block logs
that the data was saved locally, calls `progress.set_error`, and returns
`False`.  With no records it calls `progress.complete` directly. -/
def patients_save_phase (processed_patients : List PatientRow)
    (backup_ok upload_ok : Bool) : PatientsSaveResult :=
  if processed_patients.isEmpty then
    { status := .completed, backup_written := false, returned := true }
  else if !backup_ok then
    { status := .error, backup_written := false, returned := false }
  else if upload_ok then
    { status := .completed, backup_written := true, returned := true }
  else
    { status := .error, backup_written := true, returned := false }

/-! ## Spec-side decomposition of the O2 match (claim C6) -/

/-- Modelled from the spec (claim C6): the known-ID signal alone. -/
def checkKnownId (known_o2_medication_ids : List String)
    (m : MedicationRequest) : Option String :=
  if known_o2_medication_ids.contains m.id then
    some ("Matched known ID: " ++ m.id)
  else none

/-- Modelled from the spec (claim C6): the name-text signal alone. -/
def checkNameText (o2_keywords : List String) (m : MedicationRequest) :
    Option String :=
  match m.medicationCodeableConcept with
  | none => none
  | some mc =>
    let med_name := (mc.text.getD "").toLower
    if o2_keywords.any (fun kw => strContainsSub med_name kw.toLower) then
      some ("Matched name: " ++ med_name)
    else none

/-- Modelled from the spec (claim C6): the coding signal alone. -/
def checkCoding (o2_keywords : List String) (m : MedicationRequest) :
    Option String :=
  match m.medicationCodeableConcept with
  | none => none
  | some mc =>
    match mc.coding.find? (codingMatches o2_keywords) with
    | some c => some ("Matched coding: " ++ (c.display.getD "").toLower)
    | none => none

/-- Modelled from the spec (claim C6): the dosage signal alone. -/
def checkDosage (o2_keywords dosage_keywords : List String)
    (m : MedicationRequest) : Option String :=
  m.dosageInstruction.findSome? (dosageReason o2_keywords dosage_keywords m)

/-- Modelled from the spec (claim C6): the category signal alone. -/
def checkCategory (m : MedicationRequest) : Option String :=
  m.category.findSome? (fun cat =>
    cat.coding.findSome? (fun c =>
      let display := (c.display.getD "").toLower
      if strContainsSub display "respiratory" ||
          strContainsSub display "oxygen" then
        some ("Matched category: " ++ display)
      else none))

/-- Modelled from the spec (claim C6): the notes signal alone. -/
def checkNote (o2_keywords : List String) (m : MedicationRequest) :
    Option String :=
  m.note.findSome? (fun n =>
    match n.text with
    | none => none
    | some t0 =>
      let note_text := t0.toLower
      if o2_keywords.any (fun kw => strContainsSub note_text kw.toLower) then
        some ("Matched note text: " ++ note_text.take 30 ++ "...")
      else none)

/-- First hit of the six signals in the priority order the spec states:
known IDs, name text, coding, dosage, category, notes. -/
def o2PriorityChain (known_o2_medication_ids o2_keywords dosage_keywords :
    List String) (m : MedicationRequest) : Option String :=
  (checkKnownId known_o2_medication_ids m).orElse (fun _ =>
    (checkNameText o2_keywords m).orElse (fun _ =>
      (checkCoding o2_keywords m).orElse (fun _ =>
        (checkDosage o2_keywords dosage_keywords m).orElse (fun _ =>
          (checkCategory m).orElse (fun _ =>
            checkNote o2_keywords m)))))

/-! ## Concrete instances for counterexamples and witnesses -/

/-- First page of the three-page chain used against claim C2: one resource,
a `next` link to `"u2"`. -/
def exB1 : Bundle Nat :=
  { entry := [{ resource := some 1 }],
    link := [{ relation := "next", url := some "u2" }] }

/-- Second page of the chain: an empty `entry` array but still a `next`
link to `"u3"`. -/
def exB2 : Bundle Nat :=
  { entry := [], link := [{ relation := "next", url := some "u3" }] }

/-- Third page of the chain: one resource and no `next` link. -/
def exB3 : Bundle Nat :=
  { entry := [{ resource := some 3 }], link := [] }

/-- Page server for the three-page chain. -/
def exFetch : String → Bundle Nat := fun u =>
  if u == "u2" then exB2 else if u == "u3" then exB3
  else { entry := [], link := [] }

/-- First page of a fully nonempty two-page chain (C2 witness). -/
def wB1 : Bundle Nat :=
  { entry := [{ resource := some 10 }],
    link := [{ relation := "next", url := some "w2" }] }

/-- Second page of the two-page chain: no `next` link. -/
def wB2 : Bundle Nat :=
  { entry := [{ resource := some 20 }], link := [] }

/-- Page server for the two-page chain. -/
def wFetch : String → Bundle Nat := fun u =>
  if u == "w2" then wB2 else { entry := [], link := [] }

/-- Window server for the C1 witness: the query at cursor `c` returns one
note dated exactly `c`. -/
def wServer : Int → List NoteRes := fun c => [{ date := some c, rid := 0 }]

/-- A stored CSV with one row whose `Api_Run_Date` parses to 1900 (C7
counterexample). -/
def cexStore : List NoteRow :=
  [{ note_date := none, api_run_date := some 1900, rid := 0 }]

/-- Window server for the C7 counterexample: every window returns one note
dated 199. -/
def cexServer : Int → List NoteRes := fun _ => [{ date := some 199, rid := 7 }]

/-- A MedicationRequest whose id is a known O2 id while every keyword field
is absent (C6 witness). -/
def medKnown : MedicationRequest :=
  { id := "known-1", medicationCodeableConcept := none,
    dosageInstruction := [], category := [], note := [] }

/-- One processed patient record (C9 counterexample). -/
def prEx : PatientRow :=
  { patientId := "p1", lastName := "", firstName := "", mi := "",
    street := "", city := "", state := "", zip := "", county := "",
    phone := "" }

/-! ## Theorems -/

/-- C10: `normalize_phone_number` maps every input that strips to exactly
10 digits to `###-###-####` form (e.g. "5551234567" to "555-123-4567"),
every input that strips to 11 digits with a leading 1 to the same 10-digit
form (e.g. "15551234567" to "555-123-4567"), returns every other non-empty
input unchanged with a warning logged, and returns the empty string for
empty input. -/
theorem C10_normalize_phone :
    (∀ s : String, (digitsOnly s).length = 10 →
      normalize_phone_number s = (format10 (digitsOnly s), false)) ∧
    (∀ s : String, (digitsOnly s).length = 11 →
      (digitsOnly s).headD ' ' = '1' →
      normalize_phone_number s = (format10 ((digitsOnly s).drop 1), false)) ∧
    (∀ s : String, s ≠ "" → (digitsOnly s).length ≠ 10 →
      ¬((digitsOnly s).length = 11 ∧ (digitsOnly s).headD ' ' = '1') →
      normalize_phone_number s = (s, true)) ∧
    normalize_phone_number "" = ("", false) ∧
    normalize_phone_number "5551234567" = ("555-123-4567", false) ∧
    normalize_phone_number "15551234567" = ("555-123-4567", false) ∧
    normalize_phone_number "(555) 123-4567" = ("555-123-4567", false) ∧
    normalize_phone_number "555-1234" = ("555-1234", true) := by
  refine ⟨?_, ?_, ?_, by decide, by decide, by decide, by decide, by decide⟩
  · intro s h
    by_cases hs : s = ""
    · subst hs; simp [digitsOnly] at h
    · simp [normalize_phone_number, hs, h]
  · intro s h h1
    rw [List.headD_eq_head?_getD] at h1
    by_cases hs : s = ""
    · subst hs; simp [digitsOnly] at h
    · simp [normalize_phone_number, hs, h, h1]
  · intro s hs h10 h11
    simp only [normalize_phone_number, beq_iff_eq, hs, if_false]
    rw [if_neg, if_neg]
    · simp only [Bool.and_eq_true, beq_iff_eq, not_and]
      intro hlen
      have := fun hh => h11 ⟨hlen, hh⟩
      simpa using this
    · simpa using h10

/-- C3: after exactly `rotation_threshold` successful calls have
incremented the request counter from a refreshed state, the next
`get_token` call performs exactly one token refresh (and none happens
earlier), and every refresh — forced, no-cached-token, or
counter-at-threshold — resets the internal request counter to 0. -/
theorem C3_token_rotation :
    (∀ (tm : TokenManager) (rotation n : Nat),
      (incrementN tm rotation n).request_count = tm.request_count + n ∧
      (incrementN tm rotation n).current_token = tm.current_token) ∧
    (∀ (rotation k : Nat) (tok fresh : String), tok ≠ "" → k < rotation →
      ((incrementN ⟨0, some tok⟩ rotation k).get_token rotation fresh
        false).refreshes = 0) ∧
    (∀ (rotation : Nat) (tok fresh : String),
      ((incrementN ⟨0, some tok⟩ rotation rotation).get_token rotation fresh
        false).refreshes = 1 ∧
      ((incrementN ⟨0, some tok⟩ rotation rotation).get_token rotation fresh
        false).state.request_count = 0) ∧
    (∀ (tm : TokenManager) (rotation : Nat) (fresh : String) (force : Bool),
      1 ≤ (tm.get_token rotation fresh force).refreshes →
      (tm.get_token rotation fresh force).state.request_count = 0 ∧
      (tm.get_token rotation fresh force).refreshes = 1) := by
  have hinc : ∀ (tm : TokenManager) (rotation n : Nat),
      (incrementN tm rotation n).request_count = tm.request_count + n ∧
      (incrementN tm rotation n).current_token = tm.current_token := by
    intro tm rotation n
    induction n with
    | zero => simp [incrementN]
    | succ n ih =>
      simp [incrementN, TokenManager.increment_request_count, ih.1, ih.2]
      omega
  refine ⟨hinc, ?_, ?_, ?_⟩
  · intro rotation k tok fresh htok hk
    have h1 : (incrementN ⟨0, some tok⟩ rotation k).request_count = k := by
      simpa using (hinc ⟨0, some tok⟩ rotation k).1
    have h2 := (hinc ⟨0, some tok⟩ rotation k).2
    simp only [TokenManager.get_token, h2, tokenFalsy]
    rw [if_neg]
    simp only [Bool.or_eq_true, decide_eq_true_eq, beq_iff_eq]
    push_neg
    refine ⟨⟨fun h => absurd h (by simp), htok⟩, ?_⟩
    omega
  · intro rotation tok fresh
    have h1 := (hinc ⟨0, some tok⟩ rotation rotation).1
    simp only [TokenManager.get_token]
    rw [if_pos]
    · exact ⟨rfl, rfl⟩
    · simp only [Bool.or_eq_true, decide_eq_true_eq]
      right; omega
  · intro tm rotation fresh force h
    simp only [TokenManager.get_token] at h ⊢
    split at h
    · rename_i hc
      rw [if_pos hc]
      exact ⟨rfl, rfl⟩
    · simp at h

/-- C3 witness: with rotation threshold 2, one increment does not trigger a
refresh, two do, and the refresh resets the counter. -/
theorem C3_witness :
    ((incrementN ⟨0, some "t"⟩ 2 1).get_token 2 "u" false).refreshes = 0 ∧
    ((incrementN ⟨0, some "t"⟩ 2 2).get_token 2 "u" false).refreshes = 1 ∧
    ((incrementN ⟨0, some "t"⟩ 2 2).get_token 2 "u"
      false).state.request_count = 0 :=
  ⟨C3_token_rotation.2.1 2 1 "t" "u" (by decide) (by decide),
   (C3_token_rotation.2.2.1 2 "t" "u").1,
   (C3_token_rotation.2.2.1 2 "t" "u").2⟩

/-- C5: `FHIRClient` defines no `get_resources` method, so the
`fhir_client.get_resources("MedicationRequest", params)` call in
`_check_patient_o2_status` raises `AttributeError` on every invocation; the
enclosing `try/except` converts this to `(False, "")`, so every patient's
O2 status is `False` and the O2 column of every output row is blank. -/
theorem C5_o2_always_false :
    fhirClientHasMethod "get_resources" = false ∧
    (∀ (patient_id : String) (server_meds : List MedicationRequest)
      (kIds o2k dk : List String),
      check_patient_o2_status patient_id server_meds kIds o2k dk =
        (false, "")) ∧
    (∀ (patient_id : String) (server_meds : List MedicationRequest)
      (kIds o2k dk : List String),
      o2ColumnValue
        (check_patient_o2_status patient_id server_meds kIds o2k dk).1 =
        "") := by
  refine ⟨by decide, ?_, ?_⟩ <;>
    (intro patient_id server_meds kIds o2k dk;
     simp [check_patient_o2_status, o2ColumnValue, fhirClientHasMethod,
       fhirClientMethods])

/-- C9 counterexample: with one processed record, a successful local backup
and a failed SharePoint upload, the ProgressTracker ends in status `error`
even though the backup succeeded — refuting "error only if both the remote
upload and the local backup fail". -/
theorem C9_counterexample :
    (patients_save_phase [prEx] true false).status = TrackerStatus.error ∧
    (patients_save_phase [prEx] true false).backup_written = true ∧
    (patients_save_phase [prEx] true false).returned = false ∧
    ¬((patients_save_phase [prEx] true false).status = TrackerStatus.error →
      (patients_save_phase [prEx] true false).backup_written = false) := by
  decide

/-- C9 amended: the local CSV backup is written before the upload attempt
rather than as a fallback; when the upload fails the ProgressTracker is set
to `error` and `main` returns `False` even though the backup succeeded (the
data is preserved locally); status is `completed` only when the upload
succeeds or there was nothing to upload, and a backup failure aborts with
`error` before any upload. -/
theorem C9_backup_then_upload (processed : List PatientRow)
    (h : processed ≠ []) :
    patients_save_phase processed true false =
      { status := .error, backup_written := true, returned := false } ∧
    patients_save_phase processed true true =
      { status := .completed, backup_written := true, returned := true } ∧
    (∀ u, patients_save_phase processed false u =
      { status := .error, backup_written := false, returned := false }) := by
  have hne : processed.isEmpty = false := by simp [List.isEmpty_iff, h]
  refine ⟨?_, ?_, fun u => ?_⟩ <;> simp [patients_save_phase, hne]

/-- C9 witness: the amended behaviour at one concrete record. -/
theorem C9_witness :
    patients_save_phase [prEx] true false =
      { status := .error, backup_written := true, returned := false } ∧
    patients_save_phase [prEx] true true =
      { status := .completed, backup_written := true, returned := true } :=
  ⟨(C9_backup_then_upload [prEx] (by decide)).1,
   (C9_backup_then_upload [prEx] (by decide)).2.1⟩

/-- C10 witness: the 10-digit case applied at a concrete input. -/
theorem C10_witness :
    normalize_phone_number "555 123 4567" =
      (format10 (digitsOnly "555 123 4567"), false) :=
  C10_normalize_phone.1 "555 123 4567" (by decide)

/-- Helper: an early-return match on an `Option` is `Option.orElse`. -/
theorem option_match_eq_orElse {α : Type} (x : Option α)
    (y : Option α) :
    (match x with | some r => some r | none => y) =
      x.orElse (fun _ => y) := by
  cases x <;> rfl

/-- C6: a MedicationRequest whose id is in the known-O2-medication-ID list
makes the per-medication O2 check return the known-ID match reason
regardless of every other field; the check follows the priority order
known IDs, name text, coding, dosage, category, notes (first hit wins);
and the medication loop reports `(True, "Matched known ID: <id>")` for
such a medication at the head of the list. -/
theorem C6_o2_priority :
    (∀ (kIds o2k dk : List String) (m : MedicationRequest),
      m.id ∈ kIds →
      checkMedication kIds o2k dk m =
        some ("Matched known ID: " ++ m.id)) ∧
    (∀ (kIds o2k dk : List String) (m : MedicationRequest),
      checkMedication kIds o2k dk m = o2PriorityChain kIds o2k dk m) ∧
    (∀ (kIds o2k dk : List String) (m : MedicationRequest)
      (rest : List MedicationRequest),
      m.id ∈ kIds →
      o2MatchLoop kIds o2k dk (m :: rest) =
        (true, "Matched known ID: " ++ m.id)) := by
  have hknown : ∀ (kIds o2k dk : List String) (m : MedicationRequest),
      m.id ∈ kIds →
      checkMedication kIds o2k dk m =
        some ("Matched known ID: " ++ m.id) := by
    intro kIds o2k dk m hmem
    have hc : kIds.contains m.id = true := by simpa using hmem
    simp only [checkMedication]
    rw [if_pos hc]
  refine ⟨hknown, ?_, ?_⟩
  · intro kIds o2k dk m
    simp only [checkMedication, o2PriorityChain, checkKnownId, checkNameText,
      checkCoding, checkDosage, checkCategory, checkNote]
    by_cases hid : kIds.contains m.id = true
    · rw [if_pos hid, if_pos hid]
      rfl
    · rw [if_neg hid, if_neg hid]
      cases hmc : m.medicationCodeableConcept with
      | none =>
        dsimp only
        cases hD : m.dosageInstruction.findSome? (dosageReason o2k dk m) with
        | some r => rfl
        | none =>
          cases hCat : m.category.findSome? (fun cat =>
              cat.coding.findSome? (fun c =>
                if strContainsSub (c.display.getD "").toLower "respiratory" ||
                    strContainsSub (c.display.getD "").toLower "oxygen" then
                  some ("Matched category: " ++ (c.display.getD "").toLower)
                else none)) with
          | some r => rfl
          | none => rfl
      | some mc =>
        dsimp only
        by_cases hname : (o2k.any fun kw =>
            strContainsSub (mc.text.getD "").toLower kw.toLower) = true
        · rw [if_pos hname, if_pos hname]
          rfl
        · rw [if_neg hname, if_neg hname]
          cases hcod : mc.coding.find? (codingMatches o2k) with
          | some c => rfl
          | none =>
            cases hD : m.dosageInstruction.findSome? (dosageReason o2k dk m)
              with
            | some r => rfl
            | none =>
              cases hCat : m.category.findSome? (fun cat =>
                  cat.coding.findSome? (fun c =>
                    if strContainsSub (c.display.getD "").toLower
                          "respiratory" ||
                        strContainsSub (c.display.getD "").toLower "oxygen"
                    then
                      some ("Matched category: " ++ (c.display.getD "").toLower)
                    else none)) with
              | some r => rfl
              | none => rfl
  · intro kIds o2k dk m rest hmem
    simp only [o2MatchLoop, hknown kIds o2k dk m hmem]

/-- C6 witness: a medication whose id is known while every keyword-bearing
field is absent still matches by known ID, and the loop reports it. -/
theorem C6_witness :
    checkMedication ["known-1"] [] [] medKnown =
      some ("Matched known ID: " ++ medKnown.id) ∧
    o2MatchLoop ["known-1"] [] [] [medKnown] =
      (true, "Matched known ID: " ++ medKnown.id) :=
  ⟨C6_o2_priority.1 ["known-1"] [] [] medKnown (by decide),
   C6_o2_priority.2.2 ["known-1"] [] [] medKnown [] (by decide)⟩

/-- C8: a response with HTTP status 414 makes `make_request` return the
`None` sentinel without raising and without issuing any further HTTP
attempt, for every value of the retry counter; the only token-manager
effect is the initial `get_headers` token fetch. -/
theorem C8_http_414 (α : Type) (fetch : Nat → HttpResponse α)
    (rotation max_retries : Nat) (fresh : Nat → String) (tm : TokenManager)
    (retry_count : Nat) (h414 : (fetch retry_count).status = 414) :
    make_request α fetch rotation max_retries fresh tm retry_count =
      .ok (none, (tm.get_token rotation (fresh retry_count) false).state,
        1) := by
  unfold make_request
  simp [h414]

/-- C8 witness: a 414 response at a concrete request. -/
theorem C8_witness :
    make_request Nat (fun _ => ⟨414, 60, 0⟩) 200 3 (fun _ => "t")
      ⟨0, none⟩ 0 =
      .ok (none,
        (TokenManager.get_token ⟨0, none⟩ 200 "t" false).state, 1) :=
  C8_http_414 Nat (fun _ => ⟨414, 60, 0⟩) 200 3 (fun _ => "t")
    ⟨0, none⟩ 0 rfl

/-- Helper: rows with no parseable `Api_Run_Date` leave the fold
accumulator unchanged. -/
theorem latestFold_all_none (rows : List NoteRow)
    (h : ∀ r ∈ rows, r.api_run_date = none) :
    ∀ acc, rows.foldl latestStep acc = acc := by
  induction rows with
  | nil => intro acc; rfl
  | cons r rows ih =>
    intro acc
    have hr : r.api_run_date = none := h r (by simp)
    have ht : ∀ q ∈ rows, q.api_run_date = none := fun q hq =>
      h q (by simp [hq])
    simp [List.foldl_cons, latestStep, hr, ih ht]

/-- Helper: when the fold yields `some T`, `T` is attained (by the
accumulator or some row) and bounds the accumulator and every row's
parseable date from above. -/
theorem latestFold_some (rows : List NoteRow) :
    ∀ (acc : Option Int) (T : Int), rows.foldl latestStep acc = some T →
      (acc = some T ∨ ∃ r ∈ rows, r.api_run_date = some T) ∧
      (∀ a, acc = some a → a ≤ T) ∧
      (∀ r ∈ rows, ∀ d, r.api_run_date = some d → d ≤ T) := by
  induction rows with
  | nil =>
    intro acc T h
    simp only [List.foldl_nil] at h
    refine ⟨Or.inl h, ?_, by simp⟩
    intro a ha
    rw [ha] at h
    exact le_of_eq (Option.some.inj h)
  | cons r rows ih =>
    intro acc T h
    simp only [List.foldl_cons] at h
    obtain ⟨hat, hacc, hrows⟩ := ih (latestStep acc r) T h
    have hstep_att : latestStep acc r = some T →
        acc = some T ∨ r.api_run_date = some T := by
      intro hs
      cases hra : r.api_run_date with
      | none =>
        simp only [latestStep, hra] at hs
        exact Or.inl hs
      | some dt =>
        cases hacc2 : acc with
        | none =>
          simp only [latestStep, hra, hacc2] at hs
          exact Or.inr (by simpa using hs)
        | some l =>
          simp only [latestStep, hra, hacc2] at hs
          by_cases hlt : l < dt
          · rw [if_pos hlt] at hs
            exact Or.inr (by simpa using hs)
          · rw [if_neg hlt] at hs
            exact Or.inl (by simpa using hs)
    have hstep_le : ∀ a, acc = some a → a ≤ T := by
      intro a ha
      cases hra : r.api_run_date with
      | none => exact hacc a (by simp [latestStep, hra, ha])
      | some dt =>
        by_cases hlt : a < dt
        · have := hacc dt (by simp [latestStep, hra, ha, hlt])
          omega
        · exact hacc a (by simp [latestStep, hra, ha, hlt])
    have hr_le : ∀ d, r.api_run_date = some d → d ≤ T := by
      intro d hd
      cases hacc2 : acc with
      | none => exact hacc d (by simp [latestStep, hd, hacc2])
      | some l =>
        by_cases hlt : l < d
        · exact hacc d (by simp [latestStep, hd, hacc2, hlt])
        · have := hacc l (by simp [latestStep, hd, hacc2, hlt])
          omega
    refine ⟨?_, hstep_le, ?_⟩
    · rcases hat with hat | ⟨q, hq, hqd⟩
      · rcases hstep_att hat with h1 | h1
        · exact Or.inl h1
        · exact Or.inr ⟨r, by simp, h1⟩
      · exact Or.inr ⟨q, by simp [hq], hqd⟩
    · intro q hq d hd
      rcases List.mem_cons.1 hq with hq | hq
      · subst hq; exact hr_le d hd
      · exact hrows q hq d hd

/-- C4: when the downloaded note set has at least one parseable
`Api_Run_Date` whose maximum value is `T`, the resume phase returns the
cursor `T` minus 30 minutes (strictly earlier than `T`); the scanned
maximum really is the maximum; and a failed download, an empty file, or a
file whose dates are all unparseable all fall back to 60 days before
now. -/
theorem C4_resume_cursor :
    (∀ (rows : List NoteRow) (now T : Int),
      latestApiRunDate rows = some T →
      get_last_fetch_date (.ok rows) now = T - SYNC_BUFFER_SECONDS ∧
      get_last_fetch_date (.ok rows) now < T) ∧
    (∀ (rows : List NoteRow) (T : Int),
      latestApiRunDate rows = some T →
      (∃ r ∈ rows, r.api_run_date = some T) ∧
      (∀ r ∈ rows, ∀ d, r.api_run_date = some d → d ≤ T)) ∧
    (∀ now : Int,
      get_last_fetch_date (.error ()) now = now - DEFAULT_LOOKBACK_SECONDS) ∧
    (∀ now : Int,
      get_last_fetch_date (.ok []) now = now - DEFAULT_LOOKBACK_SECONDS) ∧
    (∀ (rows : List NoteRow) (now : Int),
      (∀ r ∈ rows, r.api_run_date = none) →
      get_last_fetch_date (.ok rows) now =
        now - DEFAULT_LOOKBACK_SECONDS) := by
  have hmax : ∀ (rows : List NoteRow) (T : Int),
      latestApiRunDate rows = some T →
      (∃ r ∈ rows, r.api_run_date = some T) ∧
      (∀ r ∈ rows, ∀ d, r.api_run_date = some d → d ≤ T) := by
    intro rows T h
    obtain ⟨hat, _, hrows⟩ := latestFold_some rows none T h
    rcases hat with hat | hat
    · exact absurd hat (by simp)
    · exact ⟨hat, hrows⟩
  refine ⟨?_, hmax, fun now => rfl, fun now => rfl, ?_⟩
  · intro rows now T h
    have hne : rows.isEmpty = false := by
      obtain ⟨⟨r, hr, _⟩, _⟩ := hmax rows T h
      cases rows with
      | nil => simp at hr
      | cons a l => rfl
    constructor
    · simp [get_last_fetch_date, hne, h]
    · simp only [get_last_fetch_date, hne, h, Bool.false_eq_true, if_false]
      have : (0 : Int) < SYNC_BUFFER_SECONDS := by decide
      omega
  · intro rows now hall
    cases rows with
    | nil => rfl
    | cons r l =>
      have h0 : latestApiRunDate (r :: l) = none := by
        simpa [latestApiRunDate] using
          latestFold_all_none (r :: l) hall none
      simp [get_last_fetch_date, h0]

/-- C4 witness: resume from a two-row file whose maximum parseable
`Api_Run_Date` is 5000, and the empty-file default. -/
theorem C4_witness :
    get_last_fetch_date
      (.ok [{ note_date := none, api_run_date := some 5000, rid := 0 },
            { note_date := none, api_run_date := some 4000, rid := 1 }])
      6000 = 5000 - SYNC_BUFFER_SECONDS ∧
    get_last_fetch_date (.ok []) 6000 = 6000 - DEFAULT_LOOKBACK_SECONDS :=
  ⟨(C4_resume_cursor.1
      [{ note_date := none, api_run_date := some 5000, rid := 0 },
       { note_date := none, api_run_date := some 4000, rid := 1 }]
      6000 5000 (by decide)).1,
   C4_resume_cursor.2.2.2.1 6000⟩

/-- C2 counterexample: in the linked chain `exB1 → exB2 → exB3`, the middle
page has an empty `entry` array but still a `next` link, so the chain's
full concatenation in page order is `[1, 3]`, yet `get_all_pages` stops at
the empty page and returns `[1]` — refuting "stops exactly when a bundle
has no next link (and not earlier)". -/
theorem C2_counterexample :
    linkedChain Nat exFetch [exB1, exB2, exB3] ∧
    ([exB1, exB2, exB3].map (pageResources Nat)).flatten = [1, 3] ∧
    get_all_pages Nat exFetch exB1 10 = some [1] ∧
    get_all_pages Nat exFetch exB1 10 ≠
      some (([exB1, exB2, exB3].map (pageResources Nat)).flatten) := by
  refine ⟨⟨⟨"u2", by decide, by decide⟩, ⟨"u3", by decide, by decide⟩,
    (by decide : nextLink Nat exB3 = none)⟩, by decide, by decide, by decide⟩

/-- Helper: over a linked chain whose followed pages all have nonempty
entry arrays, the pagination loop returns the accumulator extended by
every followed page's resources. -/
theorem getAllPages_go_chain (α : Type) (fetch : String → Bundle α) :
    ∀ (rest : List (Bundle α)) (b : Bundle α) (acc : List α) (fuel : Nat),
      linkedChain α fetch (b :: rest) → rest.length < fuel →
      (∀ p ∈ rest, p.entry ≠ []) →
      get_all_pages_go α fetch b acc fuel =
        some (acc ++ (rest.map (pageResources α)).flatten) := by
  intro rest
  induction rest with
  | nil =>
    intro b acc fuel hchain hfuel hne
    cases fuel with
    | zero => omega
    | succ fuel =>
      have hnl : nextLink α b = none := hchain
      simp [get_all_pages_go, hnl]
  | cons b2 rest ih =>
    intro b acc fuel hchain hfuel hne
    obtain ⟨⟨u, hnl, hfu⟩, hchain2⟩ := hchain
    cases fuel with
    | zero => simp at hfuel
    | succ fuel =>
      have hb2 : b2.entry ≠ [] := hne b2 (by simp)
      have hb2e : (fetch u).entry.isEmpty = false := by
        rw [hfu]; simpa [List.isEmpty_iff] using hb2
      have hrec := ih b2 (acc ++ pageResources α (fetch u)) fuel hchain2
        (by simpa using hfuel) (fun p hp => hne p (by simp [hp]))
      simp only [get_all_pages_go, hnl, hb2e, Bool.false_eq_true, if_false]
      rw [hfu] at hrec ⊢
      rw [hrec]
      simp [List.flatten]

/-- Helper: a followed page with an empty entry array stops the loop there,
dropping everything after it. -/
theorem getAllPages_go_stop (α : Type) (fetch : String → Bundle α) :
    ∀ (r1 : List (Bundle α)) (b p : Bundle α) (r2 : List (Bundle α))
      (acc : List α) (fuel : Nat),
      linkedChain α fetch (b :: (r1 ++ p :: r2)) → r1.length < fuel →
      (∀ q ∈ r1, q.entry ≠ []) → p.entry = [] →
      get_all_pages_go α fetch b acc fuel =
        some (acc ++ (r1.map (pageResources α)).flatten) := by
  intro r1
  induction r1 with
  | nil =>
    intro b p r2 acc fuel hchain hfuel hne hp
    obtain ⟨⟨u, hnl, hfu⟩, _⟩ := hchain
    cases fuel with
    | zero => omega
    | succ fuel =>
      have hpe : (fetch u).entry.isEmpty = true := by
        rw [hfu]; simp [List.isEmpty_iff, hp]
      simp [get_all_pages_go, hnl, hpe]
  | cons q r1 ih =>
    intro b p r2 acc fuel hchain hfuel hne hp
    obtain ⟨⟨u, hnl, hfu⟩, hchain2⟩ := hchain
    cases fuel with
    | zero => simp at hfuel
    | succ fuel =>
      have hq : q.entry ≠ [] := hne q (by simp)
      have hqe : (fetch u).entry.isEmpty = false := by
        rw [hfu]; simpa [List.isEmpty_iff] using hq
      have hrec := ih q p r2 (acc ++ pageResources α (fetch u)) fuel hchain2
        (by simpa using hfuel) (fun x hx => hne x (by simp [hx])) hp
      simp only [get_all_pages_go, hnl, hqe, Bool.false_eq_true, if_false]
      rw [hfu] at hrec ⊢
      rw [hrec]
      simp [List.flatten]

/-- C2 amended: over a finite chain of bundles linked by `relation=next`
links, `get_all_pages` returns the concatenation of all `entry[].resource`
values in page order and stops at the bundle with no next link, provided
every followed page has a nonempty entry array; a followed page whose
entry array is empty stops the traversal there even when it carries a
next link, dropping any later pages. -/
theorem C2_pagination (α : Type) (fetch : String → Bundle α) (b : Bundle α)
    (rest : List (Bundle α)) (fuel : Nat)
    (hchain : linkedChain α fetch (b :: rest)) (hfuel : rest.length < fuel) :
    ((∀ p ∈ rest, p.entry ≠ []) →
      get_all_pages α fetch b fuel =
        some (((b :: rest).map (pageResources α)).flatten)) ∧
    (∀ r1 p r2, rest = r1 ++ p :: r2 → (∀ q ∈ r1, q.entry ≠ []) →
      p.entry = [] →
      get_all_pages α fetch b fuel =
        some (((b :: r1).map (pageResources α)).flatten)) := by
  constructor
  · intro hne
    rw [get_all_pages, getAllPages_go_chain α fetch rest b
      (pageResources α b) fuel hchain hfuel hne]
    simp [List.flatten]
  · intro r1 p r2 hrest hne hp
    subst hrest
    rw [get_all_pages, getAllPages_go_stop α fetch r1 b p r2
      (pageResources α b) fuel hchain (by simp at hfuel; omega) hne hp]
    simp [List.flatten]

/-- C2 witness: a fully nonempty two-page chain is concatenated in page
order. -/
theorem C2_witness :
    get_all_pages Nat wFetch wB1 5 =
      some (([wB1, wB2].map (pageResources Nat)).flatten) :=
  (C2_pagination Nat wFetch wB1 [wB2] 5
    ⟨⟨"w2", by decide, by decide⟩, (by decide : nextLink Nat wB2 = none)⟩
    (by decide)).1 (by decide)

/-- C7 counterexample: a run that collects one new note downloads the
existing notes CSV twice — once in the resume phase
(`get_last_fetch_date`) and once more in the merge phase (step 4 of
`main`) — refuting "downloaded from the RemoteStore only once"; the upload
is the re-downloaded rows with the new records appended. -/
theorem C7_counterexample :
    downloadCount (coordination_main cexStore cexServer 150 200 true).1 =
      2 ∧
    ¬(downloadCount (coordination_main cexStore cexServer 150 200 true).1 =
      1) ∧
    (coordination_main cexStore cexServer 150 200 true).1 =
      [.download, .download,
       .upload [{ note_date := none, api_run_date := some 1900, rid := 0 },
                { note_date := some 199, api_run_date := some 150,
                  rid := 7 }]] := by
  refine ⟨?_, ?_, ?_⟩ <;> decide

/-- C7 amended: each coordination-notes run that collects at least one new
note downloads the existing CSV twice — once in the resume phase and again
in the merge phase — and the merge phase appends the newly collected notes
to the freshly re-downloaded existing rows, uploading the full unioned
list as one complete rewrite; a run that collects nothing performs only
the resume-phase download and uploads nothing. -/
theorem C7_merge_uploads_union (store_rows : List NoteRow)
    (server : Int → List NoteRes) (run_ts now : Int) (upload_ok : Bool) :
    let cursor := get_last_fetch_date (.ok store_rows) now
    let sync := syncLoop server run_ts now ((now - cursor).toNat + 1) cursor
    (sync.notes ≠ [] →
      (coordination_main store_rows server run_ts now upload_ok).1 =
        [.download, .download, .upload (store_rows ++ sync.notes)] ∧
      downloadCount
        (coordination_main store_rows server run_ts now upload_ok).1 = 2 ∧
      (coordination_main store_rows server run_ts now upload_ok).2 =
        upload_ok) ∧
    (sync.notes = [] →
      (coordination_main store_rows server run_ts now upload_ok).1 =
        [.download] ∧
      downloadCount
        (coordination_main store_rows server run_ts now upload_ok).1 =
        1) := by
  intro cursor sync
  constructor
  · intro hne
    have he : sync.notes.isEmpty = false := by
      simpa [List.isEmpty_iff] using hne
    refine ⟨?_, ?_, ?_⟩ <;>
      simp [coordination_main, downloadCount, he]
  · intro heq
    have he : sync.notes.isEmpty = true := by simp [List.isEmpty_iff, heq]
    refine ⟨?_, ?_⟩ <;> simp [coordination_main, downloadCount, he]

/-- C7 witness: the amended behaviour at the concrete run of the
counterexample. -/
theorem C7_witness :
    (coordination_main cexStore cexServer 150 200 true).1 =
      [.download, .download,
       .upload (cexStore ++
         (syncLoop cexServer 150 200
           ((200 - get_last_fetch_date (.ok cexStore) 200).toNat + 1)
           (get_last_fetch_date (.ok cexStore) 200)).notes)] ∧
    (coordination_main cexStore cexServer 150 200 true).2 = true :=
  ⟨((C7_merge_uploads_union cexStore cexServer 150 200 true).1
      (by decide)).1,
   ((C7_merge_uploads_union cexStore cexServer 150 200 true).1
      (by decide)).2.2⟩

/-- Helper: `batch_latest_date` is the start date when the batch has no
dated resource, and the maximum of the start date and the batch's maximum
resource date otherwise. -/
theorem batchLatest_eq (rs : List NoteRes) : ∀ c : Int,
    batchLatest c rs = match specMaxDate rs with
      | none => c
      | some d => max c d := by
  induction rs with
  | nil => intro c; rfl
  | cons r t ih =>
    intro c
    have h1 : batchLatest c (r :: t) = batchLatest (batchStep c r) t := by
      simp [batchLatest, List.foldl_cons]
    rw [h1, ih (batchStep c r)]
    cases hra : r.date with
    | none =>
      simp only [batchStep, hra, specMaxDate]
      cases hsm : specMaxDate t <;> rfl
    | some d =>
      simp only [batchStep, hra, specMaxDate]
      cases hsm : specMaxDate t with
      | none =>
        dsimp only
        rcases le_or_lt d c with h | h
        · rw [if_neg (not_lt.2 h), max_eq_left h]
        · rw [if_pos h, max_eq_right h.le]
      | some a =>
        dsimp only
        rcases le_or_lt d c with h | h
        · rw [if_neg (not_lt.2 h)]
          conv_rhs => rw [← max_assoc]
          rw [max_eq_left h]
        · rw [if_pos h]
          conv_rhs => rw [← max_assoc]
          rw [max_eq_right h.le]

/-- C1: over any window server whose nonempty batches carry a maximum
resource date at or after the query cursor (which is exactly the situation
of the claim's strictly increasing batch maxima `d1 < d2 < ...`), the
windowed sync loop behaves as the spec describes: the cursor recorded
after batch `i` equals `d_i + 1` second, and the loop stops the first time
a batch returns zero notes (`noMoreData`) or the advanced cursor reaches
the `now` captured before the loop (`reachedNow`); with fuel exceeding
`now - current` the loop never exhausts its fuel, i.e. it terminates. -/
theorem C1_windowed_sync (server : Int → List NoteRes) (run_ts now : Int) :
    ∀ (fuel : Nat) (current : Int),
      (∀ c : Int, server c ≠ [] →
        ∃ d, specMaxDate (server c) = some d ∧ c ≤ d) →
      (now - current).toNat < fuel →
      specSyncTrace server now fuel current =
        some ((syncLoop server run_ts now fuel current).cursors,
          (syncLoop server run_ts now fuel current).stop) ∧
      (syncLoop server run_ts now fuel current).stop ≠
        SyncStop.fuelExhausted := by
  intro fuel
  induction fuel with
  | zero => intro current hd hfuel; omega
  | succ fuel ih =>
    intro current hd hfuel
    by_cases hemp : server current = []
    · have hloop : syncLoop server run_ts now (fuel + 1) current =
          { notes := [], cursors := [], stop := .noMoreData } := by
        simp [syncLoop, fetch_notes_by_date_range, hemp]
      have hspec : specSyncTrace server now (fuel + 1) current =
          some ([], .noMoreData) := by
        simp [specSyncTrace, hemp]
      rw [hloop, hspec]
      exact ⟨rfl, by simp⟩
    · obtain ⟨d, hsm, hcd⟩ := hd current hemp
      have hie : (server current).isEmpty = false := by
        simpa [List.isEmpty_iff] using hemp
      have hne1 : ((server current).map (noteRowOfRes run_ts)).isEmpty =
          false := by
        simp [List.isEmpty_iff, hemp]
      have hbl : batchLatest current (server current) = d := by
        rw [batchLatest_eq, hsm]
        exact max_eq_right hcd
      by_cases hnow : now ≤ d + 1
      · have hloop : syncLoop server run_ts now (fuel + 1) current =
            { notes := (server current).map (noteRowOfRes run_ts),
              cursors := [d + 1], stop := .reachedNow } := by
          simp only [syncLoop, fetch_notes_by_date_range, hne1,
            Bool.false_eq_true, if_false, hbl]
          rw [if_pos hnow]
        have hspec : specSyncTrace server now (fuel + 1) current =
            some ([d + 1], .reachedNow) := by
          simp only [specSyncTrace, hie, Bool.false_eq_true, if_false, hsm]
          rw [if_pos hnow]
        rw [hloop, hspec]
        exact ⟨rfl, by simp⟩
      · have hfuel2 : (now - (d + 1)).toNat < fuel := by omega
        have ihx := ih (d + 1) hd hfuel2
        have hloop : syncLoop server run_ts now (fuel + 1) current =
            { notes := (server current).map (noteRowOfRes run_ts) ++
                (syncLoop server run_ts now fuel (d + 1)).notes,
              cursors :=
                (d + 1) :: (syncLoop server run_ts now fuel (d + 1)).cursors,
              stop := (syncLoop server run_ts now fuel (d + 1)).stop } := by
          simp only [syncLoop, fetch_notes_by_date_range, hne1,
            Bool.false_eq_true, if_false, hbl]
          rw [if_neg hnow]
        have hspec : specSyncTrace server now (fuel + 1) current =
            match specSyncTrace server now fuel (d + 1) with
            | none => none
            | some (cs, st) => some ((d + 1) :: cs, st) := by
          simp only [specSyncTrace, hie, Bool.false_eq_true, if_false, hsm]
          rw [if_neg hnow]
        refine ⟨?_, ?_⟩
        · rw [hspec, ihx.1, hloop]
        · rw [hloop]
          exact ihx.2

/-- C1 witness: a server returning one note dated at the query cursor runs
the loop from 0 to `now = 3` with cursors 1, 2, 3 and stops at
`reachedNow` without exhausting fuel. -/
theorem C1_witness :
    specSyncTrace wServer 3 4 0 =
      some ((syncLoop wServer 0 3 4 0).cursors,
        (syncLoop wServer 0 3 4 0).stop) ∧
    (syncLoop wServer 0 3 4 0).stop ≠ SyncStop.fuelExhausted :=
  C1_windowed_sync wServer 0 3 4 0
    (fun c h => ⟨c, rfl, le_refl c⟩) (by decide)

end HCHB
